import Mathlib

/-!
Shallow embedding of `src/makelabels/makelabels.py` (class `MakeLabels`)
from the `lacunalabels` repository, together with proofs about the claims
of its specification.

Conventions of the embedding:
* Machine reals of the geometry pipeline become `ℚ` (the source only adds,
  subtracts, multiplies and divides; no claim depends on float rounding).
* `numpy` `uint8` arithmetic becomes `Nat` arithmetic mod 256.
* Python exceptions become `Except String`; a function that can raise
  returns `Except String α`.
* Python argument aliasing (a `pandas.Series` row is mutable and shared
  with the caller) is made explicit: a row function returns the pair of
  the caller-visible state of its row argument after the call and the
  `Except` outcome of the call.
* External geospatial library calls (`shapely`, `geopandas`, `rasterio`,
  `rioxarray`) are modelled on axis-aligned rational boxes: `buffer`
  grows / shrinks a box, a degenerate result of over-shrinking is the
  `invalid` geometry (shapely yields an empty polygon there, which
  `rasterio.features.rasterize` rejects with a `ValueError`, exactly as
  the `invalid` geometry is rejected here); `gpd.overlay(..., how =
  'intersection')` intersects the active geometry column, keeps the other
  (attribute) columns untouched and drops rows whose intersection is
  empty; `features.rasterize` burns a shape value at every pixel whose
  center lies in the shape, later shapes overwriting earlier ones, and
  raises when the shape iterable is empty or contains an invalid
  geometry.  `rasterio.transform.xy(t, rows, cols)` is modelled
  elementwise: the x vector comes from the `cols` argument and the y
  vector from the `rows` argument.
-/

/-! ## Small Python / numpy primitives -/

/-- Python `s[:-3]`: drop the last three characters (empty if `|s| ≤ 3`). -/
def pyDropLast3 (s : String) : String :=
  String.mk (s.toList.take (s.toList.length - 3))

/-- `numpy` rounding of a rational to an integer: round half to even. -/
def roundHalfEven (q : ℚ) : ℤ :=
  let fl := ⌊q⌋
  let frac := q - fl
  if frac < 1/2 then fl
  else if 1/2 < frac then fl + 1
  else if fl % 2 = 0 then fl else fl + 1

/-- `np.round(q, decimals)`. -/
def np_round (decimals : Nat) (q : ℚ) : ℚ :=
  (roundHalfEven (q * 10 ^ decimals) : ℚ) / 10 ^ decimals

/-- `uint8` wrap-around subtraction `a - b` (operands already reduced). -/
def sub8 (a b : Nat) : Nat := (a % 256 + 256 - b % 256) % 256

/-- `uint8` wrap-around addition. -/
def add8 (a b : Nat) : Nat := (a % 256 + b % 256) % 256

/-- `uint8` wrap-around multiplication. -/
def mul8 (a b : Nat) : Nat := (a % 256 * (b % 256)) % 256

/-! ## Affine transforms and bounds (`rasterio.transform`) -/

/-- A bounding box `(minx, miny, maxx, maxy)`, as returned by
`GeoDataFrame.bounds` / `rio.bounds()`. -/
structure Bounds where
  minx : ℚ
  miny : ℚ
  maxx : ℚ
  maxy : ℚ
deriving DecidableEq, Repr

/-- The coefficients of a north-up affine geotransform
`(a, c, e, f)`: pixel x-size, left edge, pixel y-size (negative for a
north-up raster), top edge.  The source never uses shear terms. -/
structure Transform where
  a : ℚ
  c : ℚ
  e : ℚ
  f : ℚ
deriving DecidableEq, Repr

/-- `rasterio.transform.from_bounds(minx, miny, maxx, maxy, width,
height)`. -/
def from_bounds (b : Bounds) (width height : Nat) : Transform :=
  { a := (b.maxx - b.minx) / width
    c := b.minx
    e := (b.miny - b.maxy) / height
    f := b.maxy }

/-- x coordinate of the center of the pixel in column `j`. -/
def pixelX (t : Transform) (j : Nat) : ℚ := t.c + ((j : ℚ) + 1/2) * t.a

/-- y coordinate of the center of the pixel in row `i`. -/
def pixelY (t : Transform) (i : Nat) : ℚ := t.f + ((i : ℚ) + 1/2) * t.e

/-- `rasterio.transform.xy(t, rowIdxs, colIdxs)` with the default
`offset='center'`: the returned x vector is the image of the column
indices and the y vector the image of the row indices. -/
def transform_xy (t : Transform) (rowIdxs colIdxs : List Nat) :
    List ℚ × List ℚ :=
  (colIdxs.map (pixelX t), rowIdxs.map (pixelY t))

/-- Bounds of a raster of shape `(rows, cols)` under transform `t`, as
computed by `rio.bounds()` from the transform and the shape. -/
def rioBounds (t : Transform) (rows cols : Nat) : Bounds :=
  { minx := t.c
    miny := t.f + (rows : ℚ) * t.e
    maxx := t.c + (cols : ℚ) * t.a
    maxy := t.f }

/-! ## Geometries (`shapely`) -/

/-- A planar geometry of the label pipeline: an axis-aligned box (the
polygons the claims exercise), or an invalid / empty geometry that
`rasterio.features.rasterize` rejects. -/
inductive Geom where
  | box (x0 y0 x1 y1 : ℚ)
  | invalid
deriving DecidableEq, Repr

/-- Is a pixel-center point covered by a geometry? (Burn test of
`features.rasterize`: the pixel center lies in the shape.) -/
def covers (g : Geom) (x y : ℚ) : Bool :=
  match g with
  | .box x0 y0 x1 y1 => decide (x0 ≤ x) && decide (x ≤ x1) &&
      decide (y0 ≤ y) && decide (y ≤ y1)
  | .invalid => false

/-- `shapely` `geometry.buffer(d)` on a box: grow (or, for `d < 0`,
shrink) every side by `d`.  Shrinking past a degenerate box yields an
empty polygon in shapely, which rasterize then rejects; it is the
`invalid` geometry here. -/
def buffer (g : Geom) (d : ℚ) : Geom :=
  match g with
  | .box x0 y0 x1 y1 =>
      if x1 - x0 + 2 * d < 0 ∨ y1 - y0 + 2 * d < 0 then .invalid
      else .box (x0 - d) (y0 - d) (x1 + d) (y1 + d)
  | .invalid => .invalid

/-- Intersection of two geometries (both boxes in this model). -/
def interG (g h : Geom) : Geom :=
  match g, h with
  | .box x0 y0 x1 y1, .box u0 v0 u1 v1 =>
      .box (max x0 u0) (max y0 v0) (min x1 u1) (min y1 v1)
  | _, _ => .invalid

/-- Is a geometry nonempty?  (`gpd.overlay(..., how='intersection')`
keeps only rows whose intersection is a nonempty region.) -/
def nonemptyG (g : Geom) : Bool :=
  match g with
  | .box x0 y0 x1 y1 => decide (x0 ≤ x1) && decide (y0 ≤ y1)
  | .invalid => true

/-- `shapely.geometry.box(*bounds)`. -/
def boxOf (b : Bounds) : Geom := .box b.minx b.miny b.maxx b.maxy

/-- `GeoDataFrame.bounds` of a box geometry. -/
def boundsOf (g : Geom) : Bounds :=
  match g with
  | .box x0 y0 x1 y1 => ⟨x0, y0, x1, y1⟩
  | .invalid => ⟨0, 0, 0, 0⟩

/-! ## Rasterization (`rasterio.features.rasterize`) -/

/-- A single-band raster of shape `(r, c)`; the value at row `i`,
column `j` is `g i j`. -/
def Grid (r c : Nat) := Fin r → Fin c → Nat

instance (r c : Nat) : DecidableEq (Grid r c) :=
  inferInstanceAs (DecidableEq (Fin r → Fin c → Nat))

/-- `features.rasterize(shapes, fill=0, out=zeros, transform=t)` on an
`(r, c)` grid: raises on an empty shape iterable ("No valid geometry
objects found for rasterize") and on an invalid geometry ("Invalid
geometry object"); otherwise burns each shape's value at every pixel
whose center the shape covers, later shapes overwriting earlier ones. -/
def rasterize (shapes : List (Geom × Nat)) (t : Transform) (r c : Nat) :
    Except String (Grid r c) :=
  if shapes.isEmpty then
    .error "ValueError: No valid geometry objects found for rasterize"
  else if shapes.any (fun s => s.1 = .invalid) then
    .error "ValueError: Invalid geometry object"
  else
    .ok (fun i j => shapes.foldl
      (fun acc s => if covers s.1 (pixelX t j) (pixelY t i) then s.2 else acc)
      0)

/-! ## `MakeLabels.template` -/

/-- The raster returned by `MakeLabels.template`: an `xarray.DataArray`
of shape `(rows, cols)` with `y`/`x` coordinate vectors and
`(transform, crs)` attributes. -/
structure TemplateRast where
  rows : Nat
  cols : Nat
  vals : Nat → Nat → Int
  ycoords : List ℚ
  xcoords : List ℚ
  transform : Transform
  crs : String

/-- The `xr.DataArray(np.full((rows, cols), 0), dims=["y","x"],
coords={"y": y, "x": x}, ...)` constructor: xarray raises a `ValueError`
("conflicting sizes") unless the coordinate vector of each dimension has
exactly the length of that dimension. -/
def dataArray (rows cols : Nat) (y x : List ℚ) (t : Transform)
    (crs : String) : Except String TemplateRast :=
  if y.length = rows ∧ x.length = cols then
    .ok ⟨rows, cols, fun _ _ => 0, y, x, t, crs⟩
  else
    .error "ValueError: conflicting sizes for dimension"

/-- `MakeLabels.template(bounds, rows, cols, decimals, crs)`.  Mirrors
the source line by line: the rounded `width` is computed and never used;
the transform comes from `from_bounds(*bounds, width=cols, height=rows)`;
`x, y = rasterio.transform.xy(trans, np.arange(cols), np.arange(rows))`
passes `np.arange(cols)` as the ROW indices and `np.arange(rows)` as the
COLUMN indices. -/
def template (b : Bounds) (rows cols : Nat) (decimals : Nat)
    (crs : String) : Except String TemplateRast :=
  let width := np_round decimals (b.maxx - b.minx)
  let trans := from_bounds b cols rows
  let xy := transform_xy trans (List.range cols) (List.range rows)
  dataArray rows cols xy.2 xy.1 trans crs

/-! ## Catalog rows and `MakeLabels.image_chipper` -/

/-- One row of the catalog (a `pandas.Series` in the source).  The
`date`, `srcName` fields stand for the columns selected by `date_col`
and `src_col`; `image` and `label` are the fields the two row functions
write (`none` when absent). -/
structure CatRow where
  name : String
  date : String
  x : ℚ
  y : ℚ
  srcName : String
  assignment_id : String
  nflds : Int
  image : Option String
  label : Option String
deriving DecidableEq, Repr

/-- The chip file name `f"{catrow['name']}_{catrow[date_col][:-3]}.tif"`
derived on line 137 of the source. -/
def chipImageName (row : CatRow) : String :=
  row.name ++ "_" ++ pyDropLast3 row.date ++ ".tif"

/-- `MakeLabels.target_poly(x, y, w)`: the square box
`[x-w, x+w] × [y-w, y+w]`. -/
def target_poly (x y w : ℚ) : Geom := .box (x - w) (y - w) (x + w) (y + w)

/-- Elementwise `np.round(bounds, decimals)`. -/
def roundBounds (decimals : Nat) (b : Bounds) : Bounds :=
  ⟨np_round decimals b.minx, np_round decimals b.miny,
   np_round decimals b.maxx, np_round decimals b.maxy⟩

/-- `MakeLabels.image_chipper`.  The first component of the result is the
caller-visible state of the `catrow` argument when the call ends (Python
passes the mutable row by reference and line 139 sets `catrow["image"]`
on it before any branching); the second is the outcome: on success, the
returned row and whether a chip file was written.

The source raster and `reproject_match` are modelled only as far as the
claims need: reprojection resamples the source onto the template grid,
so the two bounds / shape assertions of the source compare the template
grid with itself and pass; the chip pixel contents play no role in any
claim.  The source raster file is assumed present. -/
def image_chipper (catrow : CatRow) (w : ℚ) (rows cols : Nat)
    (decimals : Nat) (crs : String) (overwrite : Bool)
    (dstExists : Bool) : CatRow × Except String (CatRow × Bool) :=
  let image := chipImageName catrow
  let catrow1 := { catrow with image := some image }
  if !overwrite && dstExists then
    (catrow1, .ok (catrow1, false))
  else
    let bnds := roundBounds decimals (boundsOf (target_poly catrow.x catrow.y w))
    match template bnds rows cols decimals crs with
    | .error e => (catrow1, .error e)
    | .ok _r => (catrow1, .ok (catrow1, true))

/-! ## Field polygons and `MakeLabels.threeclass_label` -/

/-- One row of the `fields` GeoDataFrame. -/
structure FieldRow where
  geometry : Geom
  assignment_id : String
deriving DecidableEq, Repr

/-- One row of the working GeoDataFrame `shp` inside
`threeclass_label`: the active geometry plus the attribute columns
`category`, `buffer_in`, `buffer_out` added on lines 234-236. -/
structure ShpRow where
  geometry : Geom
  category : Nat
  buffer_in : Geom
  buffer_out : Geom
deriving DecidableEq, Repr

/-- Lines 231-232: select this assignment's rows from `fields`. -/
def shpMatch (fields : List FieldRow) (aid : String) : List FieldRow :=
  fields.filter (fun f => f.assignment_id == aid)

/-- Lines 234-236: tag every selected polygon with `category = 1` and
add the two buffered variants, computed from the (unclipped) geometry. -/
def shpBuffered (shp : List FieldRow) (res : ℚ) : List ShpRow :=
  shp.map (fun f =>
    { geometry := f.geometry
      category := 1
      buffer_in := buffer f.geometry (-res)
      buffer_out := buffer f.geometry res })

/-- Line 237, `gpd.overlay(grid, shp, how='intersection')`: intersect
the active geometry column with the chip footprint, keep the attribute
columns (including `buffer_in` / `buffer_out`) untouched, and drop rows
whose intersection is empty. -/
def shpOverlay (gridBox : Geom) (shp : List ShpRow) : List ShpRow :=
  (shp.map (fun s => { s with geometry := interG gridBox s.geometry })).filter
    (fun s => nonemptyG s.geometry)

/-- The `adjust` step of line 276:
`np.where((exploded*2-burned) == 1, 0, exploded*2-burned)`. -/
def adjust8 (v : Nat) : Nat := if v = 1 then 0 else v

/-- Line 274-278, per pixel, in `uint8` arithmetic:
`burned*2 - shrunk + adjust(exploded*2 - burned)`. -/
def labelPix (b s e : Nat) : Nat :=
  add8 (sub8 (mul8 b 2) s) (adjust8 (sub8 (mul8 e 2) b))

/-- The combine step of lines 274-278 over whole grids. -/
def labelCombine {r c : Nat} (burned shrunk exploded : Grid r c) :
    Grid r c :=
  fun i j => labelPix (burned i j) (shrunk i j) (exploded i j)

/-- The `except:` block of lines 263-272 followed by the combine step of
lines 274-278: recompute only `shrunk`, this time buffering the
(by now clipped) geometry column, and then evaluate line 276 — which
reads the local variable `exploded`.  When the `try` body raised,
`exploded` was never assigned, so Python raises a `NameError` at the
combine step; when the recomputation itself raises, that error
propagates out of the handler. -/
def threeclassFallback (shp : List ShpRow) (t : Transform) (r c : Nat)
    (res : ℚ) : Except String (Grid r c) :=
  match rasterize (shp.map (fun s => (buffer s.geometry (-res), s.category)))
      t r c with
  | .ok _shrunk => .error "NameError: name 'exploded' is not defined"
  | .error e => .error e

/-- Lines 231-278 of `threeclass_label` (the `nflds > 0` branch): build
`shp`, rasterize the three layers with the try/except fallback around
the two buffered layers, combine. -/
def threeclassCompute (fields : List FieldRow) (aid : String)
    (gridBox : Geom) (t : Transform) (r c : Nat) (res : ℚ) :
    Except String (Grid r c) :=
  let shp := shpOverlay gridBox (shpBuffered (shpMatch fields aid) res)
  match rasterize (shp.map (fun s => (s.geometry, s.category))) t r c with
  | .error e => .error e
  | .ok burned =>
    match rasterize (shp.map (fun s => (s.buffer_in, s.category))) t r c with
    | .error _ => threeclassFallback shp t r c res
    | .ok shrunk =>
      match rasterize (shp.map (fun s => (s.buffer_out, s.category))) t r c with
      | .error _ => threeclassFallback shp t r c res
      | .ok exploded => .ok (labelCombine burned shrunk exploded)

/-- Lines 210-211: the label file name, spliced from the first two
`"_"`-separated parts of the chip name and the assignment id; a chip
name with fewer than two parts raises an `IndexError`. -/
def lblNameOf (row : CatRow) : Option String :=
  match row.srcName.splitOn "_" with
  | p0 :: p1 :: _ => some (p0 ++ "_" ++ row.assignment_id ++ "_" ++ p1)
  | _ => none

/-- `res = np.mean([abs(transform[0]), abs(transform[4])])` (line 223). -/
def resOf (t : Transform) : ℚ := (|t.a| + |t.e|) / 2

/-- `MakeLabels.threeclass_label`.  The chip opened on line 219 is given
by its transform `t` and spatial shape `(r, c)`.  The first component of
the result is the caller-visible state of the `catrow` argument when the
call ends — the source copies the row (line 308) before augmenting it,
so it is always the unchanged input row.  On success the outcome carries
the returned (augmented) row and the written label grid (`none` when the
skip branch wrote nothing).  The bounds / shape assertions of lines
290-301 compare the label raster, built on the chip's own coordinates
and shape, with the chip, and always pass. -/
def threeclass_label (r c : Nat) (t : Transform) (catrow : CatRow)
    (fields : List FieldRow) (overwrite : Bool) (dstExists : Bool) :
    CatRow × Except String (CatRow × Option (Grid r c)) :=
  match lblNameOf catrow with
  | none => (catrow, .error "IndexError: list index out of range")
  | some lblName =>
    if !overwrite && dstExists then
      (catrow, .ok ({ catrow with label := some lblName }, none))
    else
      let res := resOf t
      let gridBox := boxOf (rioBounds t r c)
      if catrow.nflds > 0 then
        match threeclassCompute fields catrow.assignment_id gridBox t r c res with
        | .error e => (catrow, .error e)
        | .ok lbl =>
            (catrow, .ok ({ catrow with label := some lblName }, some lbl))
      else
        (catrow, .ok ({ catrow with label := some lblName },
          some (fun _ _ => 0)))

/-- The label pipeline as the spec's words describe it (§4.3 steps 3-4):
clip the selected polygons to the chip footprint FIRST, then compute the
two buffered variants from the clipped geometry.  Stated only to be
compared with `threeclassCompute`, which follows the source. -/
def threeclassComputeClipFirst (fields : List FieldRow) (aid : String)
    (gridBox : Geom) (t : Transform) (r c : Nat) (res : ℚ) :
    Except String (Grid r c) := do
  let clipped := ((shpMatch fields aid).map
      (fun f => interG gridBox f.geometry)).filter
      (fun g => nonemptyG g)
  let shp := clipped.map (fun g =>
    { geometry := g
      category := 1
      buffer_in := buffer g (-res)
      buffer_out := buffer g res : ShpRow })
  let burned ← rasterize (shp.map (fun s => (s.geometry, s.category))) t r c
  let shrunk ← rasterize (shp.map (fun s => (s.buffer_in, s.category))) t r c
  let exploded ← rasterize (shp.map (fun s => (s.buffer_out, s.category))) t r c
  pure (labelCombine burned shrunk exploded)

/-! ## The batch runners -/

/-- The two possible entries of a batch result list: the row function's
normal result, or the tagged error tuple `(None, str(e))` that
`parallelize` substitutes when the row function raises. -/
inductive RunResult (α : Type) where
  | ok (a : α)
  | err (msg : String)
deriving DecidableEq, Repr

/-- `MakeLabels.parallelize` (lines 417-427): run the row function on
one row, catching any exception and converting it to the tagged tuple
`(None, str(e))`.  The keyword argument dictionary is already applied
inside `f`. -/
def parallelize {α β : Type} (f : α → Except String β) (row : α) :
    RunResult β :=
  match f row with
  | .ok b => .ok b
  | .error e => .err e

/-- `MakeLabels.run_parallel_pool` (lines 366-389): `pool.map` of
`parallelize` over the catalog rows.  `multiprocessing.Pool.map` returns
results in input order; the map over the row list models that. -/
def run_parallel_pool {α β : Type} (catalog : List α)
    (f : α → Except String β) : List (RunResult β) :=
  catalog.map (fun row => parallelize f row)

/-- `MakeLabels.run_parallel_threads` (lines 391-415): submit one future
per row, in order, then collect `future.result()` in the same order. -/
def run_parallel_threads {α β : Type} (catalog : List α)
    (f : α → Except String β) : List (RunResult β) :=
  let futures := catalog.map (fun row => parallelize f row)
  futures

/-! ## Helper functions for stating the claims -/

/-- Is an `Except` the error case? -/
def isErr {ε α : Type} : Except ε α → Bool
  | .error _ => true
  | .ok _ => false

/-- The pixel value at row `i`, column `j` of a successfully computed
grid, `none` on an error or out of range. -/
def pixAt {r c : Nat} (x : Except String (Grid r c)) (i j : Nat) :
    Option Nat :=
  match x with
  | .error _ => none
  | .ok g =>
      if hi : i < r then
        if hj : j < c then some (g ⟨i, hi⟩ ⟨j, hj⟩) else none
      else none

instance {ε α : Type} [DecidableEq ε] [DecidableEq α] :
    DecidableEq (Except ε α) := fun x y =>
  match x, y with
  | .ok a, .ok b =>
      match decEq a b with
      | isTrue h => isTrue (by rw [h])
      | isFalse h => isFalse (fun hh => h (by injection hh))
  | .ok _, .error _ => isFalse (fun hh => by injection hh)
  | .error _, .ok _ => isFalse (fun hh => by injection hh)
  | .error e, .error e2 =>
      match decEq e e2 with
      | isTrue h => isTrue (by rw [h])
      | isFalse h => isFalse (fun hh => h (by injection hh))

/-- The pixel at row `i`, column `j` of the label grid written by a
`threeclass_label` call, `none` when the call raised, skipped, or `(i, j)`
is out of range. -/
def labelPixAt {r c : Nat}
    (res : CatRow × Except String (CatRow × Option (Grid r c)))
    (i j : Nat) : Option Nat :=
  match res.2 with
  | .error _ => none
  | .ok (_, none) => none
  | .ok (_, some g) =>
      if hi : i < r then
        if hj : j < c then some (g ⟨i, hi⟩ ⟨j, hj⟩) else none
      else none

/-! ## Concrete sample inputs used by the witness theorems -/

/-- A 1×1 chip over the unit square `(0,0)-(1,1)`; `res = 1`. -/
def tr1x1 : Transform := ⟨1, 0, -1, 1⟩

/-- A 4×4 chip over `(0,0)-(4,4)`; `res = 1`. -/
def tr4x4 : Transform := ⟨1, 0, -1, 4⟩

/-- A catalog row with one field polygon (`nflds = 1`). -/
def rowOne : CatRow := ⟨"n", "d", 0, 0, "a_b", "i", 1, none, none⟩

/-- A catalog row with no field polygons (`nflds = 0`). -/
def rowZero : CatRow := ⟨"n", "d", 0, 0, "a_b", "i", 0, none, none⟩

/-- A field polygon comfortably larger than the 1×1 chip, so that both
buffered variants stay valid. -/
def bigField : FieldRow := ⟨.box (-2) (-2) 3 3, "i"⟩

/-- A field polygon smaller than `2*res`, whose inward buffer is the
degenerate (empty) geometry. -/
def tinyField : FieldRow := ⟨.box (1/5) (1/5) (4/5) (4/5), "i"⟩

/-- A field polygon protruding past the right edge (`x = 4`) of the 4×4
chip: clipping before or after buffering gives different labels. -/
def protrudingField : FieldRow := ⟨.box (1/5) (1/5) 6 (19/5), "i"⟩

/-- The footprint of the 4×4 chip. -/
def grid4Box : Geom := boxOf (rioBounds tr4x4 4 4)

/-- A row function for exercising the batch runners: fails on every row
except `0`. -/
def exampleRowFn : Nat → Except String Nat :=
  fun n => if n = 0 then .ok n else .error "boom"

/-- The working row that `threeclass_label` builds from `protrudingField`
on the 4×4 chip with `res = 1`: geometry clipped to the chip footprint,
buffered variants computed from the unclipped polygon. -/
def wShpRow : ShpRow :=
  ⟨.box (1/5) (1/5) 4 (19/5), 1,
   .box (6/5) (6/5) 5 (14/5),
   .box (-(4/5)) (-(4/5)) 7 (24/5)⟩

/-! # Supporting lemmas -/

theorem isErr_iff {ε α : Type} (x : Except ε α) :
    isErr x = true ↔ ∃ e, x = .error e := by
  cases x <;> simp [isErr]

/-- A point covered by an intersection is covered by the second operand. -/
theorem covers_interG_right {g h : Geom} {x y : ℚ}
    (hc : covers (interG g h) x y = true) : covers h x y = true := by
  cases g with
  | invalid => simp [interG, covers] at hc
  | box a0 b0 a1 b1 =>
    cases h with
    | invalid => simp [interG, covers] at hc
    | box u0 v0 u1 v1 =>
      simp only [interG, covers, Bool.and_eq_true, decide_eq_true_eq] at hc ⊢
      obtain ⟨⟨⟨h1, h2⟩, h3⟩, h4⟩ := hc
      refine ⟨⟨⟨?_, ?_⟩, ?_⟩, ?_⟩
      · exact le_trans (le_max_right a0 u0) h1
      · exact le_trans h2 (min_le_right a1 u1)
      · exact le_trans (le_max_right b0 v0) h3
      · exact le_trans h4 (min_le_right b1 v1)

/-- Outward buffering by a nonnegative distance preserves coverage. -/
theorem covers_buffer_of_covers {g : Geom} {x y d : ℚ} (hd : 0 ≤ d)
    (hc : covers g x y = true) : covers (buffer g d) x y = true := by
  cases g with
  | invalid => simp [covers] at hc
  | box x0 y0 x1 y1 =>
    simp only [covers, Bool.and_eq_true, decide_eq_true_eq] at hc
    obtain ⟨⟨⟨h1, h2⟩, h3⟩, h4⟩ := hc
    have hx : ¬(x1 - x0 + 2 * d < 0 ∨ y1 - y0 + 2 * d < 0) := by
      push_neg
      constructor <;> linarith
    simp only [buffer, if_neg hx, covers, Bool.and_eq_true, decide_eq_true_eq]
    refine ⟨⟨⟨?_, ?_⟩, ?_⟩, ?_⟩ <;> linarith

/-- A point covered by the inward buffer is covered by the outward one. -/
theorem covers_buffer_neg_of {g : Geom} {x y d : ℚ} (hd : 0 ≤ d)
    (hc : covers (buffer g (-d)) x y = true) :
    covers (buffer g d) x y = true := by
  cases g with
  | invalid => simp [buffer, covers] at hc
  | box x0 y0 x1 y1 =>
    by_cases hdeg : x1 - x0 + 2 * -d < 0 ∨ y1 - y0 + 2 * -d < 0
    · simp only [buffer] at hc
      rw [if_pos hdeg] at hc
      simp [covers] at hc
    · simp only [buffer, if_neg hdeg, covers, Bool.and_eq_true,
        decide_eq_true_eq] at hc
      obtain ⟨⟨⟨h1, h2⟩, h3⟩, h4⟩ := hc
      have hx : ¬(x1 - x0 + 2 * d < 0 ∨ y1 - y0 + 2 * d < 0) := by
        push_neg
        constructor <;> linarith
      simp only [buffer, if_neg hx, covers, Bool.and_eq_true, decide_eq_true_eq]
      refine ⟨⟨⟨?_, ?_⟩, ?_⟩, ?_⟩ <;> linarith

/-- The mean of the two absolute pixel resolutions is nonnegative. -/
theorem resOf_nonneg (t : Transform) : 0 ≤ resOf t := by
  unfold resOf
  positivity

/-- Characterization of the rows of the working GeoDataFrame `shp` after
lines 231-237: each row descends from a matching row of `fields`; its
buffered variants were computed from the UNCLIPPED geometry, its active
geometry was clipped afterwards by the overlay, and empty clipped
geometries were dropped. -/
theorem mem_shpOverlay {fields : List FieldRow} {aid : String}
    {gb : Geom} {res : ℚ} {s : ShpRow}
    (hs : s ∈ shpOverlay gb (shpBuffered (shpMatch fields aid) res)) :
    ∃ f ∈ fields, f.assignment_id = aid ∧ s.category = 1 ∧
      s.buffer_in = buffer f.geometry (-res) ∧
      s.buffer_out = buffer f.geometry res ∧
      s.geometry = interG gb f.geometry ∧
      nonemptyG s.geometry = true := by
  unfold shpOverlay shpBuffered shpMatch at hs
  obtain ⟨hmem, hne⟩ := List.mem_filter.mp hs
  obtain ⟨s1, hs1, hmap⟩ := List.mem_map.mp hmem
  obtain ⟨f, hf, hmap1⟩ := List.mem_map.mp hs1
  obtain ⟨hfmem, hfaid⟩ := List.mem_filter.mp hf
  refine ⟨f, hfmem, by simpa using hfaid, ?_, ?_, ?_, ?_, ?_⟩ <;>
    subst hmap <;> subst hmap1 <;> simp_all

/-- A successfully rasterized grid is the fold of the burn-in steps. -/
theorem rasterize_ok_val {shapes : List (Geom × Nat)} {t : Transform}
    {r c : Nat} {g : Grid r c} (h : rasterize shapes t r c = .ok g)
    (i : Fin r) (j : Fin c) :
    g i j = shapes.foldl
      (fun acc s => if covers s.1 (pixelX t j) (pixelY t i) then s.2 else acc)
      0 := by
  unfold rasterize at h
  split at h
  · exact absurd h (by simp)
  · split at h
    · exact absurd h (by simp)
    · injection h with h
      exact congrFun (congrFun h.symm i) j

/-- Folding burn-in steps whose values are all `1`: the result is `1`
when some shape covers the point, the start value otherwise. -/
theorem foldl_burn (shapes : List (Geom × Nat)) (x y : ℚ) (a : Nat)
    (h1 : ∀ p ∈ shapes, p.2 = 1) :
    shapes.foldl (fun acc s => if covers s.1 x y then s.2 else acc) a =
      if shapes.any (fun s => covers s.1 x y) then 1 else a := by
  induction shapes generalizing a with
  | nil => simp
  | cons p l ih =>
    have hp : p.2 = 1 := h1 p (List.mem_cons_self p l)
    have hl : ∀ q ∈ l, q.2 = 1 := fun q hq => h1 q (List.mem_cons_of_mem p hq)
    simp only [List.foldl_cons, List.any_cons, ih _ hl]
    by_cases hcv : covers p.1 x y = true
    · simp only [hcv]
      simp [hp]
    · rw [Bool.not_eq_true] at hcv
      simp only [hcv, Bool.false_or]
      simp

/-- `List.any` over a mapped list tests the composite predicate. -/
theorem any_map_general {α β : Type} (l : List α) (f : α → β)
    (p : β → Bool) :
    (l.map f).any p = l.any (fun a => p (f a)) := by
  induction l with
  | nil => rfl
  | cons a l ih => simp [List.any_cons, ih]

/-- The pixel values of a successfully rasterized layer of `shp`, when
every row carries `category = 1`: `1` at pixels whose center some row's
layer geometry covers, `0` elsewhere. -/
theorem rasterize_layer_val {shp : List ShpRow} {layer : ShpRow → Geom}
    {t : Transform} {r c : Nat} {g : Grid r c}
    (hcat : ∀ s ∈ shp, s.category = 1)
    (h : rasterize (shp.map (fun s => (layer s, s.category))) t r c = .ok g)
    (i : Fin r) (j : Fin c) :
    g i j = if shp.any (fun s => covers (layer s) (pixelX t j) (pixelY t i))
      then 1 else 0 := by
  have hval := rasterize_ok_val h i j
  rw [foldl_burn] at hval
  · rw [any_map_general] at hval
    simpa using hval
  · intro p hp
    obtain ⟨s, hsmem, hsp⟩ := List.mem_map.mp hp
    simp [← hsp, hcat s hsmem]

/-- Every pixel of a label grid successfully computed by the `nflds > 0`
branch is in `{0, 1, 2}`. -/
theorem threeclassCompute_range {fields : List FieldRow} {aid : String}
    {gb : Geom} {t : Transform} {r c : Nat} {res : ℚ} {g : Grid r c}
    (hres : 0 ≤ res)
    (h : threeclassCompute fields aid gb t r c res = .ok g)
    (i : Fin r) (j : Fin c) : g i j = 0 ∨ g i j = 1 ∨ g i j = 2 := by
  simp only [threeclassCompute] at h
  set shp := shpOverlay gb (shpBuffered (shpMatch fields aid) res) with hshp
  have hcat : ∀ s ∈ shp, s.category = 1 := by
    intro s hsmem
    rw [hshp] at hsmem
    obtain ⟨f, _, _, hc1, _⟩ := mem_shpOverlay hsmem
    exact hc1
  split at h
  · exact absurd h (by simp)
  case _ burned hb =>
    split at h
    case _ herr =>
      unfold threeclassFallback at h
      split at h <;> exact absurd h (by simp)
    case _ shrunk hs =>
      split at h
      case _ herr =>
        unfold threeclassFallback at h
        split at h <;> exact absurd h (by simp)
      case _ exploded he =>
        injection h with h
        subst h
        have hbv := rasterize_layer_val hcat hb i j
        have hsv := rasterize_layer_val hcat hs i j
        have hev := rasterize_layer_val hcat he i j
        set x := pixelX t (j : Nat) with hx
        set y := pixelY t (i : Nat) with hy
        have himp1 : shp.any (fun s => covers s.geometry x y) = true →
            shp.any (fun s => covers s.buffer_out x y) = true := by
          intro hany
          obtain ⟨s, hsmem, hcov⟩ := List.any_eq_true.mp hany
          rw [hshp] at hsmem
          obtain ⟨f, _, _, _, _, hout, hgeo, _⟩ := mem_shpOverlay hsmem
          refine List.any_eq_true.mpr ⟨s, by rw [hshp]; exact hsmem, ?_⟩
          rw [hout]
          exact covers_buffer_of_covers hres
            (covers_interG_right (hgeo ▸ hcov))
        have himp2 : shp.any (fun s => covers s.buffer_in x y) = true →
            shp.any (fun s => covers s.buffer_out x y) = true := by
          intro hany
          obtain ⟨s, hsmem, hcov⟩ := List.any_eq_true.mp hany
          rw [hshp] at hsmem
          obtain ⟨f, _, _, _, hin, hout, _, _⟩ := mem_shpOverlay hsmem
          refine List.any_eq_true.mpr ⟨s, by rw [hshp]; exact hsmem, ?_⟩
          rw [hout]
          exact covers_buffer_neg_of hres (hin ▸ hcov)
        unfold labelCombine
        rw [hbv, hsv, hev]
        rcases hB : shp.any (fun s => covers s.geometry x y) <;>
          rcases hS : shp.any (fun s => covers s.buffer_in x y) <;>
          rcases hE : shp.any (fun s => covers s.buffer_out x y)
        · decide
        · decide
        · exact absurd (himp2 hS) (by simp [hE])
        · decide
        · exact absurd (himp1 hB) (by simp [hE])
        · decide
        · exact absurd (himp1 hB) (by simp [hE])
        · decide

/-! # Claim theorems -/

/-- C9: for fixed bounds, rows, cols and crs, `template` returns the same
raster (same transform, same coordinates, same values) for any two values
of the `decimals` parameter: the rounded `width` computed on line 85 of
the source is never used, so `decimals` has no effect on the output. -/
theorem template_decimals_unused (b : Bounds) (rows cols d1 d2 : Nat)
    (crs : String) :
    template b rows cols d1 crs = template b rows cols d2 crs := rfl

/-- C5 (counterexample): `template` does not return a grid for every
`rows`, `cols` pair — at `rows = 2`, `cols = 3` it raises instead of
returning a zero-filled grid. -/
theorem template_not_total_cex :
    isErr (template ⟨0, 0, 1, 1⟩ 2 3 4 "epsg:4326") = true := by rfl

/-- C5 (amended): whenever `rows = cols`, `template` derives its affine
geotransform from `from_bounds(*bounds, width=cols, height=rows)` and
returns the zero-filled `rows × cols` grid carrying that transform, the
pixel-center coordinate vectors, and the crs.  (The rounded pixel width
of line 85 is computed but dead; for `rows ≠ cols` the function raises —
see the index swap in the `rasterio.transform.xy` call.) -/
theorem template_square (b : Bounds) (n d : Nat) (crs : String) :
    template b n n d crs = .ok ⟨n, n, fun _ _ => 0,
      (List.range n).map (pixelY (from_bounds b n n)),
      (List.range n).map (pixelX (from_bounds b n n)),
      from_bounds b n n, crs⟩ := by
  simp [template, dataArray, transform_xy]

/-- C8: `template` returns normally only when `rows = cols`: the source
passes `np.arange(cols)` as the row indices and `np.arange(rows)` as the
column indices of `rasterio.transform.xy`, so the x vector has length
`rows` and the y vector length `cols`, and the `(rows, cols)`-shaped
`DataArray` cannot be coordinated unless the two agree; consequently
`image_chipper` (which builds its template on the non-skip path) also
fails for `rows ≠ cols`. -/
theorem template_requires_square (b : Bounds) (rows cols d : Nat)
    (crs : String) (row : CatRow) (w : ℚ) (ex : Bool)
    (h : rows ≠ cols) :
    isErr (template b rows cols d crs) = true ∧
    isErr (image_chipper row w rows cols d crs true ex).2 = true := by
  have ht : ∀ (b2 : Bounds) (crs2 : String),
      isErr (template b2 rows cols d crs2) = true := by
    intro b2 crs2
    simp only [template, dataArray, transform_xy, List.length_map,
      List.length_range]
    rw [if_neg]
    · rfl
    · rintro ⟨_, h2⟩
      exact h h2
  refine ⟨ht b crs, ?_⟩
  obtain ⟨e, he⟩ := (isErr_iff _).mp
    (ht (roundBounds d (boundsOf (target_poly row.x row.y w))) crs)
  simp only [image_chipper, Bool.not_true, Bool.false_and, he]
  simp [isErr]

/-- C8 (witness): at `rows = 2`, `cols = 3` both `template` and the
non-skip path of `image_chipper` fail. -/
theorem template_requires_square_witness :
    isErr (template ⟨0, 0, 2, 2⟩ 2 3 5 "epsg:32630") = true ∧
    isErr (image_chipper rowOne 1 2 3 5 "epsg:32630" true false).2 = true :=
  template_requires_square ⟨0, 0, 2, 2⟩ 2 3 5 "epsg:32630" rowOne 1 false
    (by decide)

/-- C3: both batch runners return one result per input row, in input
order: the `i`-th result is `parallelize` applied to the `i`-th row,
which is the row function's normal result when it returns and the tagged
error pair `(None, str(e))` when it raises, so a per-row exception never
aborts the batch. -/
theorem run_parallel_isolation {α β : Type} (catalog : List α)
    (f : α → Except String β) (i : Nat) :
    (run_parallel_pool catalog f).length = catalog.length ∧
    (run_parallel_threads catalog f).length = catalog.length ∧
    (run_parallel_pool catalog f)[i]? =
      (catalog[i]?).map (fun row => parallelize f row) ∧
    (run_parallel_threads catalog f)[i]? =
      (catalog[i]?).map (fun row => parallelize f row) ∧
    (∀ row b, f row = .ok b → parallelize f row = .ok b) ∧
    (∀ row e, f row = .error e → parallelize f row = .err e) := by
  refine ⟨by simp [run_parallel_pool], by simp [run_parallel_threads],
    ?_, ?_, ?_, ?_⟩
  · simp [run_parallel_pool]
  · simp [run_parallel_threads]
  · intro row b hb
    simp [parallelize, hb]
  · intro row e he
    simp [parallelize, he]

/-- C3 (witness): on the two-row catalog `[0, 1]` with a row function
failing on row `1`, both runners return two results in order, the first
normal and the second the tagged error. -/
theorem run_parallel_isolation_witness :
    (run_parallel_pool [0, 1] exampleRowFn).length = 2 ∧
    (run_parallel_threads [0, 1] exampleRowFn).length = 2 ∧
    (run_parallel_pool [0, 1] exampleRowFn)[0]? = some (RunResult.ok 0) ∧
    (run_parallel_pool [0, 1] exampleRowFn)[1]? =
      some (RunResult.err "boom") ∧
    (run_parallel_threads [0, 1] exampleRowFn)[1]? =
      some (RunResult.err "boom") := by
  have h0 := run_parallel_isolation [0, 1] exampleRowFn 0
  have h1 := run_parallel_isolation [0, 1] exampleRowFn 1
  refine ⟨h0.1, h0.2.1, ?_, ?_, ?_⟩
  · rw [h0.2.2.1]
    have := h0.2.2.2.2.1 0 0 (by decide)
    simp [this]
  · rw [h1.2.2.1]
    have := h1.2.2.2.2.2 1 "boom" (by decide)
    simp [this]
  · rw [h1.2.2.2.1]
    have := h1.2.2.2.2.2 1 "boom" (by decide)
    simp [this]

/-- C6 (counterexample): `image_chipper` does not leave the caller's row
unchanged — line 139 of the source sets `catrow["image"]` on the shared
mutable row before any branching, so after the call (here: a skip) the
caller's row differs from the row passed in. -/
theorem image_chipper_mutates_row :
    (image_chipper rowOne 1 2 2 4 "epsg:4326" false true).1 ≠ rowOne := by
  with_unfolding_all decide

/-- C6 (amended): `threeclass_label` consumes its row read-only (the
caller-visible row after the call is the input row) and returns an
augmented copy carrying the label name; `image_chipper` instead augments
the caller's row in place with the derived chip name and returns that
same mutated row. -/
theorem row_functions_aliasing (r c : Nat) (t : Transform)
    (catrow : CatRow) (fields : List FieldRow) (ov ex : Bool) (w : ℚ)
    (rows cols d : Nat) (crs : String) (ov2 ex2 : Bool) :
    (threeclass_label r c t catrow fields ov ex).1 = catrow ∧
    (∀ ret pay,
      (threeclass_label r c t catrow fields ov ex).2 = .ok (ret, pay) →
      ret = { catrow with label := lblNameOf catrow }) ∧
    (image_chipper catrow w rows cols d crs ov2 ex2).1 =
      { catrow with image := some (chipImageName catrow) } ∧
    (∀ ret wrote,
      (image_chipper catrow w rows cols d crs ov2 ex2).2 =
        .ok (ret, wrote) →
      ret = { catrow with image := some (chipImageName catrow) } ∧
      ret = (image_chipper catrow w rows cols d crs ov2 ex2).1) := by
  refine ⟨?_, ?_, ?_, ?_⟩
  · simp only [threeclass_label]
    split
    · rfl
    · split
      · rfl
      · split
        · split <;> rfl
        · rfl
  · intro ret pay hok
    simp only [threeclass_label] at hok
    split at hok
    · exact absurd hok (by simp)
    case _ nm hname =>
      rw [hname]
      split at hok
      · injection hok with hok
        injection hok with ha hb
        exact ha.symm
      · split at hok
        · split at hok
          · exact absurd hok (by simp)
          · injection hok with hok
            injection hok with ha hb
            exact ha.symm
        · injection hok with hok
          injection hok with ha hb
          exact ha.symm
  · simp only [image_chipper]
    split
    · rfl
    · split <;> rfl
  · intro ret wrote hok
    have h1 : (image_chipper catrow w rows cols d crs ov2 ex2).1 =
        { catrow with image := some (chipImageName catrow) } := by
      simp only [image_chipper]
      split
      · rfl
      · split <;> rfl
    simp only [image_chipper] at hok
    split at hok
    · injection hok with hok
      injection hok with ha hb
      exact ⟨ha.symm, by rw [h1]; exact ha.symm⟩
    · split at hok
      · exact absurd hok (by simp)
      · injection hok with hok
        injection hok with ha hb
        exact ⟨ha.symm, by rw [h1]; exact ha.symm⟩

/-- C6 (witness): concrete calls — `threeclass_label` on `rowZero`
leaves the caller's row untouched and returns the labelled copy;
`image_chipper` on `rowZero` leaves the caller's row carrying the
derived chip name, equal to the returned row. -/
theorem row_functions_aliasing_witness :
    (threeclass_label 1 1 tr1x1 rowZero [] true false).1 = rowZero ∧
    ({ rowZero with label := some "a_i_b" } : CatRow) =
      { rowZero with label := lblNameOf rowZero } ∧
    (image_chipper rowZero 1 2 2 4 "e" true false).1 =
      { rowZero with image := some (chipImageName rowZero) } ∧
    ({ rowZero with image := some (chipImageName rowZero) } : CatRow) =
      { rowZero with image := some (chipImageName rowZero) } ∧
    ({ rowZero with image := some (chipImageName rowZero) } : CatRow) =
      (image_chipper rowZero 1 2 2 4 "e" true false).1 := by
  have h := row_functions_aliasing 1 1 tr1x1 rowZero [] true false 1 2 2 4
    "e" true false
  have h4 := h.2.2.2 { rowZero with image := some (chipImageName rowZero) }
    true (by with_unfolding_all decide)
  exact ⟨h.1,
    h.2.1 { rowZero with label := some "a_i_b" } (some (fun _ _ => 0))
      (by with_unfolding_all decide),
    h.2.2.1, h4.1, h4.2⟩

/-- C7: for a catalog row with `nflds = 0` (and a non-skip call: the
label name resolves and `overwrite = True`), `threeclass_label` writes
the all-zero label grid of the chip's `(r, c)` shape — the payload type
`Grid r c` is the chip's spatial shape. -/
theorem threeclass_label_zero_fields (r c : Nat) (t : Transform)
    (catrow : CatRow) (fields : List FieldRow) (ex : Bool) (nm : String)
    (hname : lblNameOf catrow = some nm) (hn : catrow.nflds = 0) :
    (threeclass_label r c t catrow fields true ex).2 =
      .ok ({ catrow with label := some nm }, some (fun _ _ => 0)) := by
  simp [threeclass_label, hname, hn]

/-- C7 (witness): the zero-field row on the 1×1 chip yields the all-zero
label. -/
theorem threeclass_label_zero_fields_witness :
    lblNameOf rowZero = some "a_i_b" ∧ rowZero.nflds = 0 ∧
    (threeclass_label 1 1 tr1x1 rowZero [] true false).2 =
      .ok ({ rowZero with label := some "a_i_b" }, some (fun _ _ => 0)) :=
  ⟨by with_unfolding_all decide, by decide,
    threeclass_label_zero_fields 1 1 tr1x1 rowZero [] false "a_i_b"
      (by with_unfolding_all decide) (by decide)⟩

/-- C10: for a row with `nflds > 0` whose assignment matches no polygon
in `fields` — or whose clipped polygon set is empty after the overlay —
`threeclass_label` raises (the first `rasterize` call receives an empty
shape iterable and Python's rasterio rejects it) instead of producing an
all-zero label. -/
theorem threeclass_label_no_shapes_error (r c : Nat) (t : Transform)
    (catrow : CatRow) (fields : List FieldRow) (ex : Bool)
    (hn : 0 < catrow.nflds)
    (hempty : shpMatch fields catrow.assignment_id = [] ∨
      shpOverlay (boxOf (rioBounds t r c))
        (shpBuffered (shpMatch fields catrow.assignment_id) (resOf t)) =
        []) :
    isErr (threeclass_label r c t catrow fields true ex).2 = true := by
  have hshp : shpOverlay (boxOf (rioBounds t r c))
      (shpBuffered (shpMatch fields catrow.assignment_id) (resOf t)) =
      [] := by
    rcases hempty with hm | ho
    · rw [hm]
      rfl
    · exact ho
  have hcomp : threeclassCompute fields catrow.assignment_id
      (boxOf (rioBounds t r c)) t r c (resOf t) =
      .error "ValueError: No valid geometry objects found for rasterize" := by
    simp only [threeclassCompute, hshp]
    rfl
  cases hname : lblNameOf catrow with
  | none => simp [threeclass_label, hname, isErr]
  | some nm => simp [threeclass_label, hname, hn, hcomp, isErr]

/-- C10 (witness): a row with `nflds = 1` but no polygon with its
assignment id makes `threeclass_label` raise. -/
theorem threeclass_label_no_shapes_error_witness :
    (0 : Int) < rowOne.nflds ∧
    shpMatch [⟨.box 0 0 1 1, "zz"⟩] rowOne.assignment_id = [] ∧
    isErr (threeclass_label 1 1 tr1x1 rowOne [⟨.box 0 0 1 1, "zz"⟩]
      true false).2 = true :=
  ⟨by decide, by decide,
    threeclass_label_no_shapes_error 1 1 tr1x1 rowOne
      [⟨.box 0 0 1 1, "zz"⟩] false (by decide) (Or.inl (by decide))⟩

/-- C2: on an input where rasterizing the buffered layers raises (a
field polygon smaller than `2*res`, whose inward buffer degenerates),
`threeclass_label` does NOT recover and return a written label: the
`except:` handler recomputes the same degenerate inward buffer, whose
rasterization raises again (and even if it succeeded, the combine step
on line 276 reads the never-assigned local `exploded`, a `NameError`),
so the buffer failure surfaces to the caller as an error. -/
theorem threeclass_label_fallback_raises :
    (threeclass_label 1 1 tr1x1 rowOne [tinyField] true false).2 =
      .error "ValueError: Invalid geometry object" := by
  with_unfolding_all decide

/-- C1: every pixel of a label grid produced and persisted by
`threeclass_label` for a row with `nflds > 0` is in `{0, 1, 2}`: the
combine `burned*2 - shrunk + adjust(exploded*2 - burned)` in `uint8`
arithmetic can only produce these values because each rasterized layer
is 0/1-valued, the inward buffer lies inside the outward buffer, and the
clipped polygon lies inside the outward buffer. -/
theorem threeclass_label_class_range (r c : Nat) (t : Transform)
    (catrow : CatRow) (fields : List FieldRow) (ov ex : Bool)
    (i j v : Nat) (hn : 0 < catrow.nflds)
    (h : labelPixAt (threeclass_label r c t catrow fields ov ex) i j =
      some v) :
    v = 0 ∨ v = 1 ∨ v = 2 := by
  unfold labelPixAt at h
  split at h
  · exact absurd h (by simp)
  · exact absurd h (by simp)
  case _ x g heq =>
    split at h
    case _ hi =>
      split at h
      case _ hj =>
        injection h with h
        subst h
        simp only [threeclass_label] at heq
        split at heq
        · exact absurd heq (by simp)
        case _ nm hname =>
          split at heq
          · exact absurd heq (by simp)
          · split at heq
            · exact absurd heq (by simp)
            · dsimp only at heq
              injection heq with heq
              injection heq with ha hb
              injection hb with hb
              subst hb
              exact threeclassCompute_range (resOf_nonneg t)
                (by assumption) ⟨i, hi⟩ ⟨j, hj⟩
      case _ => exact absurd h (by simp)
    case _ => exact absurd h (by simp)

/-- C1 (witness): a concrete 1×1 run with one field polygon produces
pixel value 1, which the range theorem places in `{0, 1, 2}`. -/
theorem threeclass_label_class_range_witness :
    (0 : Int) < rowOne.nflds ∧
    labelPixAt (threeclass_label 1 1 tr1x1 rowOne [bigField] true false)
      0 0 = some 1 ∧ (1 = 0 ∨ 1 = 1 ∨ 1 = 2) :=
  ⟨by decide, by with_unfolding_all decide,
    threeclass_label_class_range 1 1 tr1x1 rowOne [bigField] true false
      0 0 1 (by decide) (by with_unfolding_all decide)⟩

/-- C4 (counterexample): the claim's order — clip to the chip footprint
BEFORE buffering — disagrees with the source, which buffers first
(lines 235-236) and clips afterwards (line 237).  On a 4×4 chip with a
polygon protruding past the right edge, the pixel in row 1, column 3 is
labelled 1 (interior) by the code but 2 (boundary) by the clip-first
pipeline of the spec, so the two differ. -/
theorem threeclass_clip_order_cex :
    pixAt (threeclassCompute [protrudingField] "i" grid4Box tr4x4 4 4 1)
      1 3 = some 1 ∧
    pixAt (threeclassComputeClipFirst [protrudingField] "i" grid4Box
      tr4x4 4 4 1) 1 3 = some 2 ∧
    threeclassCompute [protrudingField] "i" grid4Box tr4x4 4 4 1 ≠
      threeclassComputeClipFirst [protrudingField] "i" grid4Box tr4x4 4 4 1
    := by
  have h1 : pixAt (threeclassCompute [protrudingField] "i" grid4Box
      tr4x4 4 4 1) 1 3 = some 1 := by with_unfolding_all decide
  have h2 : pixAt (threeclassComputeClipFirst [protrudingField] "i"
      grid4Box tr4x4 4 4 1) 1 3 = some 2 := by with_unfolding_all decide
  refine ⟨h1, h2, fun heq => ?_⟩
  rw [heq] at h1
  rw [h1] at h2
  exact absurd h2 (by decide)

/-- C4 (amended): in `threeclass_label` the two buffered variants of
every processed polygon are computed from the UNCLIPPED geometry; the
clip to the chip footprint happens afterwards (the overlay), touches
only the active geometry column, and drops rows whose clipped geometry
is empty.  (Rasterization itself never writes outside the grid, but the
buffered layers do rasterize geometry extending beyond it.) -/
theorem threeclass_buffers_before_clip (fields : List FieldRow)
    (aid : String) (gb : Geom) (res : ℚ) (s : ShpRow)
    (hs : s ∈ shpOverlay gb (shpBuffered (shpMatch fields aid) res)) :
    ∃ f ∈ fields, f.assignment_id = aid ∧ s.category = 1 ∧
      s.buffer_in = buffer f.geometry (-res) ∧
      s.buffer_out = buffer f.geometry res ∧
      s.geometry = interG gb f.geometry ∧
      nonemptyG s.geometry = true :=
  mem_shpOverlay hs

/-- C4 (witness): the concrete working row built from `protrudingField`
on the 4×4 chip carries buffers of the unclipped polygon next to the
clipped geometry. -/
theorem threeclass_buffers_before_clip_witness :
    wShpRow ∈ shpOverlay grid4Box
      (shpBuffered (shpMatch [protrudingField] "i") 1) ∧
    (∃ f ∈ [protrudingField], f.assignment_id = "i" ∧
      wShpRow.category = 1 ∧
      wShpRow.buffer_in = buffer f.geometry (-1) ∧
      wShpRow.buffer_out = buffer f.geometry 1 ∧
      wShpRow.geometry = interG grid4Box f.geometry ∧
      nonemptyG wShpRow.geometry = true) :=
  ⟨by with_unfolding_all decide,
    threeclass_buffers_before_clip [protrudingField] "i" grid4Box 1
      wShpRow (by with_unfolding_all decide)⟩
